import Mathlib

/-!
Verification of urban-octo-robot: tagged time values, the simulated high-speed timer
and the simulated hardware interface.

A shallow embedding of `firmware/time_interface.h`, `firmware/hardware_interface.cpp`
and the classes `SimTimeHST` and `HWISim` of `firmware_sim/main.cpp`.

Machine integers are natural numbers together with the bound of their width;
every C++ conversion to an unsigned type is an explicit reduction modulo `2 ^ width`.
-/

namespace UrbanOctoRobot

/-! ## Tagged numbers (`basic_types.h`) -/

/-- Modelled from the spec: `UrbanRobot::TypeSafeNumber<T, tag>` is declared in
`basic_types.h`, which is not among the sources.  The spec describes it as an
integer whose width depends on the tag, carrying a distinct compile-time tag, built
from a raw integer and giving that raw integer back.  `bits` is the width of the
unsigned type `T`, `tag` the tag string; `raw` is the stored integer. -/
structure TypeSafeNumber (bits : Nat) (tag : String) where
  raw : Nat
  raw_lt : raw < 2 ^ bits
deriving DecidableEq

namespace TypeSafeNumber

variable {bits : Nat} {tag : String}

/-- Modelled from the spec: construction from a raw integer.  The argument is
converted to the unsigned type `T` of `bits` bits, which in C++ reduces it
modulo `2 ^ bits`. -/
def ofRaw (n : Nat) : TypeSafeNumber bits tag :=
  ⟨n % 2 ^ bits, Nat.mod_lt n (Nat.two_pow_pos bits)⟩

/-- Modelled from the spec: retrieval of the raw integer, `get()`. -/
def get (x : TypeSafeNumber bits tag) : Nat := x.raw

/-- Modelled from the spec: `operator+` of a tagged number with a raw integer of
type `T`; it adds the raw values in the unsigned type `T` and keeps the tag. -/
def addRaw (x : TypeSafeNumber bits tag) (n : Nat) : TypeSafeNumber bits tag :=
  ofRaw (x.get + n)

end TypeSafeNumber

/-! ## `firmware/time_interface.h` -/

namespace Time

/-- The alias `using DeviceTimeMS = TypeSafeNumber< unsigned int, deviceTimeMSTag >`. -/
abbrev DeviceTimeMS := TypeSafeNumber 32 "deviceTimeMSTag"

/-- The alias `using TimeMS = TypeSafeNumber< unsigned int, timeMSTag >`. -/
abbrev TimeMS := TypeSafeNumber 32 "timeMSTag"

/-- The alias `using RealTimeS = TypeSafeNumber< unsigned int, realTimeSTag >`. -/
abbrev RealTimeS := TypeSafeNumber 32 "realTimeSTag"

/-- The alias `using DeviceTimeUS = TypeSafeNumber< unsigned long long, deviceTimeUSTag >`. -/
abbrev DeviceTimeUS := TypeSafeNumber 64 "deviceTimeUSTag"

/-- The alias `using TimeUS = TypeSafeNumber< unsigned long long, timeUSTag >`. -/
abbrev TimeUS := TypeSafeNumber 64 "timeUSTag"

/-- The function `inline TimeMS UStoMS( TimeUS in ) { return TimeMS( in.get() / 1000 ); }`:
the quotient is formed in `unsigned long long` and converted to `unsigned int`
by the constructor of `TimeMS`. -/
def UStoMS (inp : TimeUS) : TimeMS :=
  TypeSafeNumber.ofRaw (inp.get / 1000)

/-- The function `inline TimeUS MStoUS( TimeMS in ) { return TimeUS( in.get() * 1000 ); }`:
`in.get()` is an `unsigned int` and `1000` an `int`, so the product is formed in
`unsigned int` (modulo `2 ^ 32`) and only then widened to `unsigned long long`
by the constructor of `TimeUS`. -/
def MStoUS (inp : TimeMS) : TimeUS :=
  TypeSafeNumber.ofRaw ((inp.get * 1000) % 2 ^ 32)

/-- The constant `constexpr unsigned int USPerMs = 1000;` -/
def USPerMs : Nat := 1000

/-- The constant `constexpr unsigned int USPerS = 1000000;` -/
def USPerS : Nat := 1000000

end Time

/-- The function
`operator+( Time::DeviceTimeUS lhs, Time::TimeUS rhs ) { return lhs + rhs.get(); }`. -/
def addDeviceTimeUS_TimeUS (lhs : Time.DeviceTimeUS) (rhs : Time.TimeUS) : Time.DeviceTimeUS :=
  lhs.addRaw rhs.get

/-- The function
`operator+( Time::TimeUS lhs, Time::DeviceTimeUS rhs ) { return rhs + lhs.get(); }`. -/
def addTimeUS_DeviceTimeUS (lhs : Time.TimeUS) (rhs : Time.DeviceTimeUS) : Time.DeviceTimeUS :=
  rhs.addRaw lhs.get

/-! ## `SimTimeHST` (`firmware_sim/main.cpp`) -/

/-- The `timespec` that `clock_gettime( CLOCK_MONOTONIC, &t )` fills in: whole seconds and
nanoseconds.  The monotonic clock never reports a negative field, so both are naturals. -/
structure Timespec where
  tv_sec : Nat
  tv_nsec : Nat
deriving DecidableEq

/-- A normalised clock reading has `0 <= tv_nsec < 10^9`. -/
def Timespec.wellFormed (t : Timespec) : Prop := t.tv_nsec < 1000000000

instance (t : Timespec) : Decidable t.wellFormed := by
  unfold Timespec.wellFormed; exact inferInstance

/-- The order of clock readings: lexicographic on `(tv_sec, tv_nsec)`. -/
def Timespec.le (a b : Timespec) : Prop :=
  a.tv_sec < b.tv_sec ∨ (a.tv_sec = b.tv_sec ∧ a.tv_nsec ≤ b.tv_nsec)

instance (a b : Timespec) : Decidable (a.le b) := by
  unfold Timespec.le; exact inferInstance

/-- Milliseconds of a clock reading without any truncation:
`tv_sec * 1000 + tv_nsec / 1000000`. -/
def Timespec.totalMs (t : Timespec) : Nat := t.tv_sec * 1000 + t.tv_nsec / 1000000

/-- Microseconds of a clock reading without any truncation:
`tv_sec * 1000000 + tv_nsec / 1000`. -/
def Timespec.totalUs (t : Timespec) : Nat := t.tv_sec * 1000000 + t.tv_nsec / 1000

/-- The 32-bit millisecond counter `msFromS + msFromNs` of `msSinceDeviceStart`, before
the start offset is subtracted. -/
def Timespec.counterMs (t : Timespec) : Nat :=
  ((t.tv_sec * 1000) % 2 ^ 32 + (t.tv_nsec / 1000000) % 2 ^ 32) % 2 ^ 32

/-- The 64-bit microsecond counter `usFromS + usFromNs` of `usSinceDeviceStart`, before
the start offset is subtracted. -/
def Timespec.counterUs (t : Timespec) : Nat :=
  ((t.tv_sec * 1000000) % 2 ^ 64 + (t.tv_nsec / 1000) % 2 ^ 64) % 2 ^ 64

/-- Subtraction `x - y` in an unsigned type of `bits` bits, for `y` below `2 ^ bits`. -/
def unsignedSub (bits : Nat) (x y : Nat) : Nat := (x % 2 ^ bits + 2 ^ bits - y) % 2 ^ bits

/-- The data members of `class SimTimeHST`. -/
structure SimTimeHST where
  startTime : Time.DeviceTimeMS
  startTimeUs : Time.DeviceTimeUS
deriving DecidableEq

/-- The member function `SimTimeHST::msSinceDeviceStart`, with the clock reading `t` as
an input:
```
const unsigned int msFromS  = t.tv_sec * 1000;
const unsigned int msFromNs = t.tv_nsec / 1000000;
return Time::DeviceTimeMS( msFromS + msFromNs - startTime.get() );
```
The two `long` values are converted to `unsigned int`, the sum and the difference are
formed in `unsigned int`. -/
def SimTimeHST.msSinceDeviceStart (self : SimTimeHST) (t : Timespec) : Time.DeviceTimeMS :=
  let msFromS : Nat := (t.tv_sec * 1000) % 2 ^ 32
  let msFromNs : Nat := (t.tv_nsec / 1000000) % 2 ^ 32
  TypeSafeNumber.ofRaw (unsignedSub 32 ((msFromS + msFromNs) % 2 ^ 32) self.startTime.get)

/-- The member function `SimTimeHST::usSinceDeviceStart`, with the clock reading `t` as
an input:
```
const unsigned long int usFromS  = t.tv_sec * 1000000;
const unsigned long int usFromNs = t.tv_nsec / 1000;
return Time::DeviceTimeUS( usFromS + usFromNs - startTimeUs.get() );
```
`unsigned long` and `unsigned long long` are both 64 bits wide on the simulator host. -/
def SimTimeHST.usSinceDeviceStart (self : SimTimeHST) (t : Timespec) : Time.DeviceTimeUS :=
  let usFromS : Nat := (t.tv_sec * 1000000) % 2 ^ 64
  let usFromNs : Nat := (t.tv_nsec / 1000) % 2 ^ 64
  TypeSafeNumber.ofRaw (unsignedSub 64 ((usFromS + usFromNs) % 2 ^ 64) self.startTimeUs.get)

/-- The constructor `SimTimeHST::SimTimeHST()`.  It reads the clock twice, once in
`msSinceDeviceStart()` (reading `tMs`) and once in `usSinceDeviceStart()` (reading `tUs`):
```
startTime = Time::DeviceTimeMS(0);
startTime = msSinceDeviceStart();
startTimeUs = Time::DeviceTimeUS(0);
startTimeUs = usSinceDeviceStart();
```
`startTimeUs` is not read before it is assigned. -/
def SimTimeHST.construct (tMs tUs : Timespec) : SimTimeHST :=
  let s0 : SimTimeHST :=
    { startTime := TypeSafeNumber.ofRaw 0, startTimeUs := TypeSafeNumber.ofRaw 0 }
  let s1 : SimTimeHST := { s0 with startTime := s0.msSinceDeviceStart tMs }
  let s2 : SimTimeHST := { s1 with startTimeUs := TypeSafeNumber.ofRaw 0 }
  { s2 with startTimeUs := s2.usSinceDeviceStart tUs }

/-- The member function `SimTimeHST::execute`: `return Time::TimeUS( 1000000 );`.  The
result is the delay until the next housekeeping call together with the object, which is
not modified. -/
def SimTimeHST.execute (self : SimTimeHST) : Time.TimeUS × SimTimeHST :=
  (TypeSafeNumber.ofRaw 1000000, self)

/-- The object after `n` housekeeping calls of `execute()`. -/
def SimTimeHST.executeTimes : Nat → SimTimeHST → SimTimeHST
  | 0, self => self
  | n + 1, self => SimTimeHST.executeTimes n self.execute.2

/-! ## The pin registries (`firmware/hardware_interface.cpp`) and `HWISim` -/

namespace HWI

/-- Modelled from the spec: `enum class HWI::Pin` is declared in `hardware_interface.h`,
which is not among the sources; a logical pin is an opaque enumerated identifier, and
the enumerators are the per-motor and per-encoder channel pins the registry names. -/
inductive Pin where
  | MOTOR0_PIN0 | MOTOR0_PIN1 | MOTOR1_PIN0 | MOTOR1_PIN1
  | ENCODER0_PIN0 | ENCODER0_PIN1 | ENCODER1_PIN0 | ENCODER1_PIN1
deriving DecidableEq, Repr

/-- Modelled from the spec: `enum class HWI::PinState` of `hardware_interface.h`, the
semantic pin values `MOTOR_POS`/`MOTOR_NEG` and `INPUT_LOW`/`INPUT_HIGH`. -/
inductive PinState where
  | MOTOR_POS | MOTOR_NEG | INPUT_LOW | INPUT_HIGH
deriving DecidableEq, Repr

/-- Modelled from the spec: `enum class HWI::PinIOMode` of `hardware_interface.h`, the
two directions input and output. -/
inductive PinIOMode where
  | M_INPUT | M_OUTPUT
deriving DecidableEq, Repr

/-- The registry `HWI::pinNames`, the initialiser list of the `std::unordered_map`. -/
def pinNames : List (Pin × String) :=
  [ (Pin.MOTOR0_PIN0,   "Motor0 Pin0"),
    (Pin.MOTOR0_PIN1,   "Motor0 Pin1"),
    (Pin.MOTOR1_PIN0,   "Motor1 Pin0"),
    (Pin.MOTOR1_PIN1,   "Motor1 Pin1"),
    (Pin.ENCODER0_PIN0, "Encoder0 Pin0"),
    (Pin.ENCODER0_PIN1, "Encoder0 Pin1"),
    (Pin.ENCODER1_PIN0, "Encoder1 Pin0"),
    (Pin.ENCODER1_PIN1, "Encoder1 Pin1") ]

/-- The registry `HWI::pinStateNames`. -/
def pinStateNames : List (PinState × String) :=
  [ (PinState.MOTOR_POS,  "Voltage On"),
    (PinState.MOTOR_NEG,  "Voltage Off"),
    (PinState.INPUT_LOW,  "Input GND"),
    (PinState.INPUT_HIGH, "Input VCC") ]

/-- The registry `HWI::pinIOModeNames`. -/
def pinIOModeNames : List (PinIOMode × String) :=
  [ (PinIOMode.M_INPUT,  "Input"),
    (PinIOMode.M_OUTPUT, "Output") ]

end HWI

/-- The lookup `std::unordered_map::at` on a map built from an initialiser list: the value of the
first entry with the key, and `none` where the C++ call throws `std::out_of_range`. -/
def unordered_map_at {K V : Type} [DecidableEq K] (m : List (K × V)) (key : K) : Option V :=
  match m with
  | [] => none
  | (k, v) :: rest => if k = key then some v else unordered_map_at rest key

namespace HWISim

/-- The member function `HWISim::PinMode`: the text written to `std::cout`, or `none`
when a lookup throws. -/
def PinMode (pin : HWI.Pin) (mode : HWI.PinIOMode) : Option String :=
  match unordered_map_at HWI.pinNames pin, unordered_map_at HWI.pinIOModeNames mode with
  | some name, some modeName => some ("PM (" ++ name ++ ") = " ++ modeName ++ "\n")
  | _, _ => none

/-- The member function `HWISim::DigitalWrite`: the text written to `std::cout`, or
`none` when a lookup throws.  The source looks the pin name up twice (once for the unused
local `name`); both lookups are the same call. -/
def DigitalWrite (pin : HWI.Pin) (state : HWI.PinState) : Option String :=
  match unordered_map_at HWI.pinNames pin, unordered_map_at HWI.pinStateNames state with
  | some name, some stateName => some ("DW (" ++ name ++ ") = " ++ stateName ++ "\n")
  | _, _ => none

/-- The member function `HWISim::DigitalRead`: the text written to `std::cout` and the
returned state, or `none` when the lookup throws. -/
def DigitalRead (pin : HWI.Pin) : Option (String × HWI.PinState) :=
  match unordered_map_at HWI.pinNames pin with
  | some name => some ("DR " ++ name ++ " returning INPUT_LOW", HWI.PinState.INPUT_LOW)
  | none => none

/-- The member function `HWISim::AnalogRead`, with the function-local
`static unsigned int count` as an explicit state; the result is the returned sample and the counter after `count++`:
```
int count_pos = ((count / 2 ) & 0xfff )/256;
int count_amp = (count & 1) ? count_pos : -count_pos ;
count++;
return 200 + count_amp;
```
`200 + count_amp` is an `int` and is converted to the `unsigned` return type. -/
def AnalogRead (_pin : HWI.Pin) (count : Nat) : Nat × Nat :=
  let count_pos : Int := ((((count / 2) &&& 0xfff) / 256 : Nat) : Int)
  let count_amp : Int := if count &&& 1 ≠ 0 then count_pos else -count_pos
  let count1 : Nat := (count + 1) % 2 ^ 32
  (((200 + count_amp) % 2 ^ 32).toNat, count1)

/-- The counter after `AnalogRead` has been called once for each pin of `pins`. -/
def countAfter (pins : List HWI.Pin) (count : Nat) : Nat :=
  pins.foldl (fun c pin => (AnalogRead pin c).2) count

end HWISim

/-! ## Basic facts about tagged numbers -/

theorem TypeSafeNumber.eq_of_get_eq {bits : Nat} {tag : String}
    {x y : TypeSafeNumber bits tag} (h : x.get = y.get) : x = y := by
  cases x; cases y; cases h; rfl

theorem TypeSafeNumber.get_ofRaw {bits : Nat} {tag : String} (n : Nat) :
    (TypeSafeNumber.ofRaw n : TypeSafeNumber bits tag).get = n % 2 ^ bits := rfl

theorem TypeSafeNumber.get_lt {bits : Nat} {tag : String} (x : TypeSafeNumber bits tag) :
    x.get < 2 ^ bits := x.raw_lt

theorem Time.UStoMS_get (u : Time.TimeUS) :
    (Time.UStoMS u).get = (u.get / 1000) % 2 ^ 32 := rfl

theorem Time.MStoUS_get (m : Time.TimeMS) :
    (Time.MStoUS m).get = (m.get * 1000) % 2 ^ 32 := by
  show ((m.get * 1000) % 2 ^ 32) % 2 ^ 64 = (m.get * 1000) % 2 ^ 32
  omega

/-! ## Conversions between the duration tags -/

/-- C1 (as stated, refuted): at the 64-bit raw value `4294967296000` the quotient by 1000
is `2 ^ 32`, which no 32-bit `TimeMS` holds; `UStoMS` returns `TimeMS(0)`. -/
theorem UStoMS_quotient_counterexample :
    (TypeSafeNumber.ofRaw 4294967296000 : Time.TimeUS).get = 4294967296000 ∧
    (Time.UStoMS (TypeSafeNumber.ofRaw 4294967296000)).get = 0 ∧
    (Time.UStoMS (TypeSafeNumber.ofRaw 4294967296000)).get
      ≠ (TypeSafeNumber.ofRaw 4294967296000 : Time.TimeUS).get / 1000 := by
  decide

/-- C1 (amended): for every `TimeUS` value `u`, the raw value of `UStoMS(u)` is
`u.get() / 1000` (truncating division) reduced modulo `2 ^ 32`; it equals
`u.get() / 1000` itself exactly when `u.get() < 4294967296000`.  In particular
`UStoMS(TimeUS(1500)) == TimeMS(1)` and `UStoMS(TimeUS(999)) == TimeMS(0)`. -/
theorem UStoMS_truncating_quotient (u : Time.TimeUS) :
    (Time.UStoMS u).get = (u.get / 1000) % 2 ^ 32 ∧
    ((Time.UStoMS u).get = u.get / 1000 ↔ u.get < 4294967296000) ∧
    Time.UStoMS (TypeSafeNumber.ofRaw 1500) = TypeSafeNumber.ofRaw 1 ∧
    Time.UStoMS (TypeSafeNumber.ofRaw 999) = TypeSafeNumber.ofRaw 0 := by
  refine ⟨rfl, ?_, by decide, by decide⟩
  rw [Time.UStoMS_get]
  omega

/-- C2 (the code at the failing input): `MStoUS(TimeMS(4294968))` is `TimeUS(704)`,
because `4294968 * 1000` is reduced modulo `2 ^ 32` before it is widened, whereas
the exact product is `4294968000`; the small case `MStoUS(TimeMS(2)) == TimeUS(2000)`
is unaffected. -/
theorem MStoUS_wraps_in_unsigned_int :
    (TypeSafeNumber.ofRaw 4294968 : Time.TimeMS).get = 4294968 ∧
    Time.MStoUS (TypeSafeNumber.ofRaw 4294968) = TypeSafeNumber.ofRaw 704 ∧
    (Time.MStoUS (TypeSafeNumber.ofRaw 4294968)).get
      ≠ (TypeSafeNumber.ofRaw 4294968 : Time.TimeMS).get * 1000 ∧
    Time.MStoUS (TypeSafeNumber.ofRaw 2) = TypeSafeNumber.ofRaw 2000 := by
  decide

/-- C10: for every `TimeMS` value `m`, `UStoMS(MStoUS(m)) == m` holds if and only if
`m.get() <= 4294967`, which is the same as `m.get() * 1000 < 2 ^ 32`; for every larger
`m` the round trip returns a value strictly smaller than `m`. -/
theorem UStoMS_MStoUS_roundtrip (m : Time.TimeMS) :
    (Time.UStoMS (Time.MStoUS m) = m ↔ m.get ≤ 4294967) ∧
    (m.get ≤ 4294967 ↔ m.get * 1000 < 2 ^ 32) ∧
    (4294967 < m.get → (Time.UStoMS (Time.MStoUS m)).get < m.get) := by
  have hget : (Time.UStoMS (Time.MStoUS m)).get
      = (((m.get * 1000) % 2 ^ 32) / 1000) % 2 ^ 32 := by
    rw [Time.UStoMS_get, Time.MStoUS_get]
  have hm := m.get_lt
  have hq : ((m.get * 1000) % 2 ^ 32) / 1000 ≤ 4294967 := by
    have hx : (m.get * 1000) % 2 ^ 32 < 2 ^ 32 := Nat.mod_lt _ (by norm_num)
    generalize (m.get * 1000) % 2 ^ 32 = x at hx
    omega
  have hsmall : m.get ≤ 4294967 → ((m.get * 1000) % 2 ^ 32) / 1000 = m.get := by
    intro h
    have hx : (m.get * 1000) % 2 ^ 32 = m.get * 1000 := Nat.mod_eq_of_lt (by omega)
    rw [hx]
    omega
  have hmod : (((m.get * 1000) % 2 ^ 32) / 1000) % 2 ^ 32
      = ((m.get * 1000) % 2 ^ 32) / 1000 := Nat.mod_eq_of_lt (by omega)
  rw [hmod] at hget
  refine ⟨⟨fun h => ?_, fun h => ?_⟩, by omega, fun h => by omega⟩
  · have h2 : (Time.UStoMS (Time.MStoUS m)).get = m.get := by rw [h]
    omega
  · apply TypeSafeNumber.eq_of_get_eq
    show (Time.UStoMS (Time.MStoUS m)).get = m.get
    rw [hget]
    exact hsmall h

/-- C10 (witness): at `TimeMS(4294968)` the round trip gives a strictly smaller value. -/
theorem UStoMS_MStoUS_roundtrip_witness :
    4294967 < (TypeSafeNumber.ofRaw 4294968 : Time.TimeMS).get ∧
    (Time.UStoMS (Time.MStoUS (TypeSafeNumber.ofRaw 4294968))).get
      < (TypeSafeNumber.ofRaw 4294968 : Time.TimeMS).get :=
  ⟨by decide, (UStoMS_MStoUS_roundtrip (TypeSafeNumber.ofRaw 4294968)).2.2 (by decide)⟩

/-! ## Device time plus duration -/

/-- C7: for every `DeviceTimeUS` `d` and `TimeUS` `t`, `d + t` and `t + d` are the same
`DeviceTimeUS`, whose raw value is `(d.get() + t.get())` modulo `2 ^ 64`; adding the
zero duration on either side returns `d` unchanged. -/
theorem add_DeviceTimeUS_TimeUS (d : Time.DeviceTimeUS) (t : Time.TimeUS) :
    addDeviceTimeUS_TimeUS d t = addTimeUS_DeviceTimeUS t d ∧
    (addDeviceTimeUS_TimeUS d t).get = (d.get + t.get) % 2 ^ 64 ∧
    (addTimeUS_DeviceTimeUS t d).get = (d.get + t.get) % 2 ^ 64 ∧
    addDeviceTimeUS_TimeUS d (TypeSafeNumber.ofRaw 0) = d ∧
    addTimeUS_DeviceTimeUS (TypeSafeNumber.ofRaw 0) d = d := by
  have hd := d.get_lt
  have h0 : (addDeviceTimeUS_TimeUS d (TypeSafeNumber.ofRaw 0)) = d := by
    apply TypeSafeNumber.eq_of_get_eq
    show (d.get + 0 % 2 ^ 64) % 2 ^ 64 = d.get
    omega
  exact ⟨rfl, rfl, rfl, h0, h0⟩

/-! ## The simulated high-speed timer -/

theorem SimTimeHST.executeTimes_eq (n : Nat) (self : SimTimeHST) :
    self.executeTimes n = self := by
  induction n with
  | zero => rfl
  | succ k ih => exact ih

theorem Timespec.counterMs_lt (t : Timespec) : t.counterMs < 2 ^ 32 :=
  Nat.mod_lt _ (by norm_num)

theorem Timespec.counterUs_lt (t : Timespec) : t.counterUs < 2 ^ 64 :=
  Nat.mod_lt _ (by norm_num)

theorem Timespec.counterMs_eq (t : Timespec) : t.counterMs = t.totalMs % 2 ^ 32 := by
  unfold Timespec.counterMs Timespec.totalMs
  omega

theorem Timespec.counterUs_eq (t : Timespec) : t.counterUs = t.totalUs % 2 ^ 64 := by
  unfold Timespec.counterUs Timespec.totalUs
  omega

theorem Timespec.totalMs_mono {a b : Timespec} (ha : a.wellFormed) (h : a.le b) :
    a.totalMs ≤ b.totalMs := by
  unfold Timespec.wellFormed at ha
  unfold Timespec.le at h
  unfold Timespec.totalMs
  omega

theorem Timespec.totalUs_mono {a b : Timespec} (ha : a.wellFormed) (h : a.le b) :
    a.totalUs ≤ b.totalUs := by
  unfold Timespec.wellFormed at ha
  unfold Timespec.le at h
  unfold Timespec.totalUs
  omega

theorem SimTimeHST.msSinceDeviceStart_get (self : SimTimeHST) (t : Timespec) :
    (self.msSinceDeviceStart t).get = (t.counterMs + 2 ^ 32 - self.startTime.get) % 2 ^ 32 := by
  have h1 := t.counterMs_lt
  show (unsignedSub 32 t.counterMs self.startTime.get) % 2 ^ 32 = _
  unfold unsignedSub
  omega

theorem SimTimeHST.usSinceDeviceStart_get (self : SimTimeHST) (t : Timespec) :
    (self.usSinceDeviceStart t).get = (t.counterUs + 2 ^ 64 - self.startTimeUs.get) % 2 ^ 64 := by
  have h1 := t.counterUs_lt
  show (unsignedSub 64 t.counterUs self.startTimeUs.get) % 2 ^ 64 = _
  unfold unsignedSub
  omega

theorem SimTimeHST.construct_startTime (tMs tUs : Timespec) :
    (SimTimeHST.construct tMs tUs).startTime.get = tMs.counterMs := by
  have h1 := tMs.counterMs_lt
  show ((⟨TypeSafeNumber.ofRaw 0, TypeSafeNumber.ofRaw 0⟩ : SimTimeHST).msSinceDeviceStart tMs).get = _
  rw [SimTimeHST.msSinceDeviceStart_get]
  show (tMs.counterMs + 2 ^ 32 - 0 % 2 ^ 32) % 2 ^ 32 = _
  omega

theorem SimTimeHST.construct_startTimeUs (tMs tUs : Timespec) :
    (SimTimeHST.construct tMs tUs).startTimeUs.get = tUs.counterUs := by
  have h1 := tUs.counterUs_lt
  show ((⟨(⟨TypeSafeNumber.ofRaw 0, TypeSafeNumber.ofRaw 0⟩ : SimTimeHST).msSinceDeviceStart tMs,
    TypeSafeNumber.ofRaw 0⟩ : SimTimeHST).usSinceDeviceStart tUs).get = _
  rw [SimTimeHST.usSinceDeviceStart_get]
  show (tUs.counterUs + 2 ^ 64 - 0 % 2 ^ 64) % 2 ^ 64 = _
  omega

/-- The millisecond reading of a constructed timer, while fewer than `2 ^ 32` ms have
passed since construction: the untruncated elapsed milliseconds. -/
theorem SimTimeHST.msSinceDeviceStart_construct (tMs tUs t : Timespec)
    (h0 : tMs.totalMs ≤ t.totalMs) (h1 : t.totalMs < tMs.totalMs + 2 ^ 32) :
    ((SimTimeHST.construct tMs tUs).msSinceDeviceStart t).get = t.totalMs - tMs.totalMs := by
  rw [SimTimeHST.msSinceDeviceStart_get, SimTimeHST.construct_startTime,
    Timespec.counterMs_eq, Timespec.counterMs_eq]
  generalize tMs.totalMs = a at *
  generalize t.totalMs = b at *
  omega

/-- The microsecond reading of a constructed timer when the microsecond counter has not
left 64 bits: the untruncated elapsed microseconds. -/
theorem SimTimeHST.usSinceDeviceStart_construct (tMs tUs t : Timespec)
    (h0 : tUs.totalUs ≤ t.totalUs) (h1 : t.totalUs < 2 ^ 64) :
    ((SimTimeHST.construct tMs tUs).usSinceDeviceStart t).get = t.totalUs - tUs.totalUs := by
  rw [SimTimeHST.usSinceDeviceStart_get, SimTimeHST.construct_startTimeUs,
    Timespec.counterUs_eq, Timespec.counterUs_eq]
  generalize tUs.totalUs = a at *
  generalize t.totalUs = b at *
  omega

/-- C3 (as stated, refuted): a timer constructed at `(100, 0)` reports `4294967295` ms at
`(4295067, 295000000)` and, one millisecond later and after a further housekeeping call,
`0` ms at `(4295067, 296000000)`. -/
theorem msSinceDeviceStart_wrap_counterexample :
    (⟨100, 0⟩ : Timespec).le ⟨4295067, 295000000⟩ ∧
    (⟨4295067, 295000000⟩ : Timespec).le ⟨4295067, 296000000⟩ ∧
    (((SimTimeHST.construct ⟨100, 0⟩ ⟨100, 0⟩).executeTimes 1).msSinceDeviceStart
        ⟨4295067, 295000000⟩).get = 4294967295 ∧
    ((((SimTimeHST.construct ⟨100, 0⟩ ⟨100, 0⟩).executeTimes 1).executeTimes 1).msSinceDeviceStart
        ⟨4295067, 296000000⟩).get = 0 ∧
    ¬ ((((SimTimeHST.construct ⟨100, 0⟩ ⟨100, 0⟩).executeTimes 1).msSinceDeviceStart
        ⟨4295067, 295000000⟩).get
      ≤ ((((SimTimeHST.construct ⟨100, 0⟩ ⟨100, 0⟩).executeTimes 1).executeTimes 1).msSinceDeviceStart
        ⟨4295067, 296000000⟩).get) := by
  decide

/-- C3 (amended): for a `SimTimeHST` whose constructor read the clock at `c0` for the
millisecond offset, and for clock readings `c0 <= c1 <= c2` with fewer than `2 ^ 32`
milliseconds between `c0` and `c2` (`tv_sec * 1000 + tv_nsec / 1000000` untruncated), with
any number of `execute()` calls before each reading, `msSinceDeviceStart()` read at `c1`
is `<=` `msSinceDeviceStart()` read at `c2`; whether the truncated 32-bit counter
itself wraps between the readings plays no part. -/
theorem msSinceDeviceStart_monotone_within_span (c0 c0us c1 c2 : Timespec) (k1 k2 : Nat)
    (w0 : c0.wellFormed) (w1 : c1.wellFormed)
    (h01 : c0.le c1) (h12 : c1.le c2)
    (hspan : c2.totalMs < c0.totalMs + 2 ^ 32) :
    (((SimTimeHST.construct c0 c0us).executeTimes k1).msSinceDeviceStart c1).get
      ≤ ((((SimTimeHST.construct c0 c0us).executeTimes k1).executeTimes k2).msSinceDeviceStart
          c2).get := by
  have m01 := Timespec.totalMs_mono w0 h01
  have m12 := Timespec.totalMs_mono w1 h12
  rw [SimTimeHST.executeTimes_eq, SimTimeHST.executeTimes_eq,
    SimTimeHST.msSinceDeviceStart_construct c0 c0us c1 m01 (by omega),
    SimTimeHST.msSinceDeviceStart_construct c0 c0us c2 (by omega) hspan]
  omega

/-- C3 (witness): the truncated counter wraps between `(4294967, 295000000)` (counter
`4294967295`) and `(4294967, 296000000)` (counter `0`); the readings `295` and `296` of a
timer constructed at `(4294967, 0)` are ordered. -/
theorem msSinceDeviceStart_monotone_within_span_witness :
    (⟨4294967, 295000000⟩ : Timespec).counterMs = 4294967295 ∧
    (⟨4294967, 296000000⟩ : Timespec).counterMs = 0 ∧
    (((SimTimeHST.construct ⟨4294967, 0⟩ ⟨4294967, 0⟩).executeTimes 1).msSinceDeviceStart
        ⟨4294967, 295000000⟩).get
      ≤ ((((SimTimeHST.construct ⟨4294967, 0⟩ ⟨4294967, 0⟩).executeTimes 1).executeTimes
          2).msSinceDeviceStart ⟨4294967, 296000000⟩).get :=
  ⟨by decide, by decide,
    msSinceDeviceStart_monotone_within_span ⟨4294967, 0⟩ ⟨4294967, 0⟩
      ⟨4294967, 295000000⟩ ⟨4294967, 296000000⟩ 1 2
      (by decide) (by decide) (by decide) (by decide) (by decide)⟩

/-- C4: for a `SimTimeHST` whose constructor read the clock at `c0` for the microsecond
offset and for clock readings `c0 <= c1 <= c2` (lexicographic, `tv_nsec < 10^9`,
`tv_sec * 1000000 + 999999` within 64 bits), with any number of `execute()` calls before
each reading, `usSinceDeviceStart()` read at `c1` is `<=` `usSinceDeviceStart()` read at
`c2`, and each reported value is `tv_sec * 1000000 + tv_nsec / 1000` minus the start
offset. -/
theorem usSinceDeviceStart_monotone (c0ms c0 c1 c2 : Timespec) (k1 k2 : Nat)
    (w0 : c0.wellFormed) (w1 : c1.wellFormed) (w2 : c2.wellFormed)
    (h01 : c0.le c1) (h12 : c1.le c2)
    (hfit : c2.tv_sec * 1000000 + 999999 < 2 ^ 64) :
    (((SimTimeHST.construct c0ms c0).executeTimes k1).usSinceDeviceStart c1).get
      ≤ ((((SimTimeHST.construct c0ms c0).executeTimes k1).executeTimes k2).usSinceDeviceStart
          c2).get ∧
    (((SimTimeHST.construct c0ms c0).executeTimes k1).usSinceDeviceStart c1).get
      = c1.tv_sec * 1000000 + c1.tv_nsec / 1000 - (c0.tv_sec * 1000000 + c0.tv_nsec / 1000) ∧
    ((((SimTimeHST.construct c0ms c0).executeTimes k1).executeTimes k2).usSinceDeviceStart
          c2).get
      = c2.tv_sec * 1000000 + c2.tv_nsec / 1000 - (c0.tv_sec * 1000000 + c0.tv_nsec / 1000) := by
  have m01 := Timespec.totalUs_mono w0 h01
  have m12 := Timespec.totalUs_mono w1 h12
  have hc2 : c2.totalUs < 2 ^ 64 := by
    unfold Timespec.wellFormed at w2
    unfold Timespec.totalUs
    omega
  rw [SimTimeHST.executeTimes_eq, SimTimeHST.executeTimes_eq,
    SimTimeHST.usSinceDeviceStart_construct c0ms c0 c1 m01 (by omega),
    SimTimeHST.usSinceDeviceStart_construct c0ms c0 c2 (by omega) hc2]
  unfold Timespec.totalUs at *
  omega

/-- C4 (witness): a timer constructed at `(5, 999999999)`, read at `(6, 0)` and at
`(6, 1500)`. -/
theorem usSinceDeviceStart_monotone_witness :
    (((SimTimeHST.construct ⟨5, 999000000⟩ ⟨5, 999999999⟩).executeTimes 3).usSinceDeviceStart
        ⟨6, 0⟩).get = 1 ∧
    ((((SimTimeHST.construct ⟨5, 999000000⟩ ⟨5, 999999999⟩).executeTimes 3).executeTimes
        1).usSinceDeviceStart ⟨6, 1500⟩).get = 2 :=
  ⟨(usSinceDeviceStart_monotone ⟨5, 999000000⟩ ⟨5, 999999999⟩ ⟨6, 0⟩ ⟨6, 1500⟩ 3 1
      (by decide) (by decide) (by decide) (by decide) (by decide) (by decide)).2.1,
   (usSinceDeviceStart_monotone ⟨5, 999000000⟩ ⟨5, 999999999⟩ ⟨6, 0⟩ ⟨6, 1500⟩ 3 1
      (by decide) (by decide) (by decide) (by decide) (by decide) (by decide)).2.2⟩

/-- C5: a `SimTimeHST` whose constructor samples the clock at `c` reports
`DeviceTimeMS(0)` and `DeviceTimeUS(0)` when read at `c`; more generally, with the two
constructor samples `cMs` and `cUs`, the constructor stores the raw counter values as the
offsets, the millisecond reading at `cMs` and the microsecond reading at `cUs` are zero,
and every later read returns (raw - offset) modulo the counter width. -/
theorem construct_reads_zero (c cMs cUs t : Timespec) :
    (SimTimeHST.construct c c).msSinceDeviceStart c = TypeSafeNumber.ofRaw 0 ∧
    (SimTimeHST.construct c c).usSinceDeviceStart c = TypeSafeNumber.ofRaw 0 ∧
    (SimTimeHST.construct cMs cUs).msSinceDeviceStart cMs = TypeSafeNumber.ofRaw 0 ∧
    (SimTimeHST.construct cMs cUs).usSinceDeviceStart cUs = TypeSafeNumber.ofRaw 0 ∧
    (SimTimeHST.construct cMs cUs).startTime.get = cMs.counterMs ∧
    (SimTimeHST.construct cMs cUs).startTimeUs.get = cUs.counterUs ∧
    ((SimTimeHST.construct cMs cUs).msSinceDeviceStart t).get
      = (t.counterMs + 2 ^ 32 - cMs.counterMs) % 2 ^ 32 ∧
    ((SimTimeHST.construct cMs cUs).usSinceDeviceStart t).get
      = (t.counterUs + 2 ^ 64 - cUs.counterUs) % 2 ^ 64 := by
  have hms : ∀ a b : Timespec,
      (SimTimeHST.construct a b).msSinceDeviceStart a = TypeSafeNumber.ofRaw 0 := by
    intro a b
    have h := a.counterMs_lt
    have hz : ((SimTimeHST.construct a b).msSinceDeviceStart a).get
        = (TypeSafeNumber.ofRaw 0 : Time.DeviceTimeMS).get := by
      rw [SimTimeHST.msSinceDeviceStart_get, SimTimeHST.construct_startTime,
        TypeSafeNumber.get_ofRaw]
      omega
    exact TypeSafeNumber.eq_of_get_eq hz
  have hus : ∀ a b : Timespec,
      (SimTimeHST.construct a b).usSinceDeviceStart b = TypeSafeNumber.ofRaw 0 := by
    intro a b
    have h := b.counterUs_lt
    have hz : ((SimTimeHST.construct a b).usSinceDeviceStart b).get
        = (TypeSafeNumber.ofRaw 0 : Time.DeviceTimeUS).get := by
      rw [SimTimeHST.usSinceDeviceStart_get, SimTimeHST.construct_startTimeUs,
        TypeSafeNumber.get_ofRaw]
      omega
    exact TypeSafeNumber.eq_of_get_eq hz
  refine ⟨hms c c, hus c c, hms cMs cUs, hus cMs cUs,
    SimTimeHST.construct_startTime cMs cUs, SimTimeHST.construct_startTimeUs cMs cUs, ?_, ?_⟩
  · rw [SimTimeHST.msSinceDeviceStart_get, SimTimeHST.construct_startTime]
  · rw [SimTimeHST.usSinceDeviceStart_get, SimTimeHST.construct_startTimeUs]

/-! ## The pin registries and the simulated hardware interface -/

/-- C6: the three diagnostic registries are total: every `Pin` has an entry in
`HWI::pinNames`, every `PinState` an entry in `HWI::pinStateNames` and every `PinIOMode`
an entry in `HWI::pinIOModeNames`; consequently the `.at()` lookups of `HWISim::PinMode`,
`HWISim::DigitalWrite` and `HWISim::DigitalRead` never throw. -/
theorem registries_total :
    (∀ pin : HWI.Pin, (unordered_map_at HWI.pinNames pin).isSome) ∧
    (∀ state : HWI.PinState, (unordered_map_at HWI.pinStateNames state).isSome) ∧
    (∀ mode : HWI.PinIOMode, (unordered_map_at HWI.pinIOModeNames mode).isSome) ∧
    (∀ (pin : HWI.Pin) (mode : HWI.PinIOMode), (HWISim.PinMode pin mode).isSome) ∧
    (∀ (pin : HWI.Pin) (state : HWI.PinState), (HWISim.DigitalWrite pin state).isSome) ∧
    (∀ pin : HWI.Pin, (HWISim.DigitalRead pin).isSome) := by
  refine ⟨?_, ?_, ?_, ?_, ?_, ?_⟩
  · intro pin; cases pin <;> rfl
  · intro state; cases state <;> rfl
  · intro mode; cases mode <;> rfl
  · intro pin mode; cases pin <;> cases mode <;> rfl
  · intro pin state; cases pin <;> cases state <;> rfl
  · intro pin; cases pin <;> rfl

theorem HWISim.countAfter_eq (pins : List HWI.Pin) (count : Nat) :
    HWISim.countAfter pins count = (count + pins.length) % 2 ^ 32 ∨ 2 ^ 32 ≤ count := by
  induction pins generalizing count with
  | nil =>
    show count = (count + 0) % 2 ^ 32 ∨ _
    omega
  | cons pin rest ih =>
    have h := ih ((count + 1) % 2 ^ 32)
    have hstep : HWISim.countAfter (pin :: rest) count
        = HWISim.countAfter rest ((count + 1) % 2 ^ 32) := rfl
    rw [hstep, List.length_cons]
    omega

theorem HWISim.AnalogRead_fst (pin : HWI.Pin) (count : Nat) :
    ((HWISim.AnalogRead pin count).1 : Int)
      = 200 + (if count % 2 = 1 then ((((count / 2) &&& 0xfff) / 256 : Nat) : Int)
          else -((((count / 2) &&& 0xfff) / 256 : Nat) : Int)) := by
  have hand : (count / 2) &&& 0xfff = (count / 2) % 4096 :=
    Nat.and_pow_two_sub_one_eq_mod (count / 2) 12
  have hodd : count &&& 1 = count % 2 := Nat.and_one_is_mod count
  show (((200 + (if count &&& 1 ≠ 0 then ((((count / 2) &&& 0xfff) / 256 : Nat) : Int)
          else -((((count / 2) &&& 0xfff) / 256 : Nat) : Int))) % 2 ^ 32).toNat : Int) = _
  rw [hand, hodd]
  split <;> split <;> omega

/-- C9: when `n < 2 ^ 32` calls of `HWISim::AnalogRead` have been made (for the pins
`pins`), the counter is `n` and the next call returns `200 + a` with `a = +p` for odd `n`
and `a = -p` for even `n`, where `p = ((n / 2) & 0xfff) / 256`; the sample lies in
`[185, 215]`, both endpoints are attained (at `n = 7680` and `n = 7681`), the `int` value
`200 + a` is never negative, and the result does not depend on the pin argument. -/
theorem AnalogRead_sample (pins : List HWI.Pin) (pin : HWI.Pin) (n : Nat)
    (hlen : pins.length = n) (hn : n < 2 ^ 32) :
    HWISim.countAfter pins 0 = n ∧
    ((HWISim.AnalogRead pin (HWISim.countAfter pins 0)).1 : Int)
      = 200 + (if n % 2 = 1 then ((((n / 2) &&& 0xfff) / 256 : Nat) : Int)
          else -((((n / 2) &&& 0xfff) / 256 : Nat) : Int)) ∧
    ((n / 2) &&& 0xfff) / 256 ≤ 15 ∧
    185 ≤ (HWISim.AnalogRead pin (HWISim.countAfter pins 0)).1 ∧
    (HWISim.AnalogRead pin (HWISim.countAfter pins 0)).1 ≤ 215 ∧
    (∀ other : HWI.Pin, HWISim.AnalogRead other (HWISim.countAfter pins 0)
      = HWISim.AnalogRead pin (HWISim.countAfter pins 0)) ∧
    (HWISim.AnalogRead pin 7680).1 = 185 ∧
    (HWISim.AnalogRead pin 7681).1 = 215 := by
  have hcount : HWISim.countAfter pins 0 = n := by
    have h := HWISim.countAfter_eq pins 0
    omega
  have hand : (n / 2) &&& 0xfff = (n / 2) % 4096 :=
    Nat.and_pow_two_sub_one_eq_mod (n / 2) 12
  have hp : ((n / 2) &&& 0xfff) / 256 ≤ 15 := by
    rw [hand]
    omega
  have hfst := HWISim.AnalogRead_fst pin n
  rw [hcount]
  refine ⟨rfl, hfst, hp, ?_, ?_, fun _ => rfl, rfl, rfl⟩
  · split at hfst <;> omega
  · split at hfst <;> omega

/-- C9 (witness): after three calls the counter is `3` and the fourth call returns `200`. -/
theorem AnalogRead_sample_witness :
    HWISim.countAfter [HWI.Pin.MOTOR0_PIN0, HWI.Pin.ENCODER0_PIN0, HWI.Pin.MOTOR1_PIN1] 0 = 3 ∧
    185 ≤ (HWISim.AnalogRead HWI.Pin.ENCODER1_PIN1
      (HWISim.countAfter [HWI.Pin.MOTOR0_PIN0, HWI.Pin.ENCODER0_PIN0, HWI.Pin.MOTOR1_PIN1] 0)).1 :=
  ⟨(AnalogRead_sample [HWI.Pin.MOTOR0_PIN0, HWI.Pin.ENCODER0_PIN0, HWI.Pin.MOTOR1_PIN1]
      HWI.Pin.ENCODER1_PIN1 3 (by decide) (by decide)).1,
   (AnalogRead_sample [HWI.Pin.MOTOR0_PIN0, HWI.Pin.ENCODER0_PIN0, HWI.Pin.MOTOR1_PIN1]
      HWI.Pin.ENCODER1_PIN1 3 (by decide) (by decide)).2.2.2.1⟩

end UrbanOctoRobot
